import Mathlib

/-!
# Verification of the social-scheduler queue/worker engine

Shallow embedding of the repository's scheduling core:

* `src/src/scheduling.py` — the slot allocator (`next_slots`, `next_daily_slots`);
* `src/src/database.py`   — the queue store (status updates, archive, cleanup);
* `src/run_worker.py`     — the worker loop (`process_video`, `check_and_post`,
  `reset_stale_tasks`).

Modelling conventions:

* Timestamps are natural numbers counting **minutes** in the configured
  timezone (a fixed-offset zone such as UTC); a calendar date is `t / 1440`
  and the time of day is `t % 1440`.  ISO-8601 strings of a common offset
  compare lexicographically exactly as the corresponding minute counts
  compare numerically, so SQL string comparison on `scheduled_for` is the
  numeric order here.
* Calendar day `0` is a Monday, so Python's `date.weekday()` (0 = Monday)
  is `d % 7`.
* A schedule config is carried with times already parsed by `"%H:%M"`
  (minutes past midnight, hence `< 1440`) and days as weekday numbers.
-/

/-- Minutes in one calendar day. -/
def minutesPerDay : Nat := 1440

/-- A (normalized) publish schedule: enabled weekdays and times of day in
minutes, as produced by `_normalize_schedule` in `src/src/scheduling.py`. -/
structure Schedule where
  days : List Nat
  times : List Nat
deriving Repr, DecidableEq

/-- Validity guaranteed by `_normalize_schedule`: nonempty weekday set within
0..6 and nonempty `"%H:%M"`-parsed times (hence `< 1440` minutes). -/
def ValidSchedule (cfg : Schedule) : Prop :=
  cfg.days ≠ [] ∧ (∀ d ∈ cfg.days, d < 7) ∧
  cfg.times ≠ [] ∧ (∀ t ∈ cfg.times, t < minutesPerDay)

instance (cfg : Schedule) : Decidable (ValidSchedule cfg) := by
  unfold ValidSchedule; infer_instance

/-- The inner `for ts in cfg["times"]` walk of one candidate day in
`next_slots`: each configured time on `date`, keeping only timestamps
strictly after `now` (`if dt <= now: continue`). -/
def daySlots (times : List Nat) (date now : Nat) : List Nat :=
  (times.map fun t => date * minutesPerDay + t).filter fun dt => now < dt

/-- `next_slots(count, start)` from `src/src/scheduling.py` (lines 63-87):
walk days `0..89` from `start`'s date, keep enabled weekdays, emit each
configured time strictly after the anchor, stop at `count`.  The source's
`break` once `count` slots exist is the `take count` of the full walk, since
later iterations only append further elements. -/
def nextSlots (cfg : Schedule) (count : Nat) (now : Nat) : List Nat :=
  (((List.range 90).filter fun off => (now / minutesPerDay + off) % 7 ∈ cfg.days).flatMap
    fun off => daySlots cfg.times (now / minutesPerDay + off) now).take count

/-- One candidate day of `next_daily_slots`: the day contributes its first
eligible time (`break` after the first append), and only when the weekday is
enabled and the date is not occupied. -/
def dailyStep (cfg : Schedule) (now : Nat) (occupied : List Nat) (off : Nat) : Option Nat :=
  let date := now / minutesPerDay + off
  if date % 7 ∈ cfg.days ∧ date ∉ occupied then
    (daySlots cfg.times date now).head?
  else
    none

/-- `next_daily_slots(count, start, occupied_dates)` from
`src/src/scheduling.py` (lines 90-118): same 90-day walk but at most one slot
per calendar date, skipping occupied dates. -/
def nextDailySlots (cfg : Schedule) (count : Nat) (now : Nat) (occupied : List Nat) :
    List Nat :=
  ((List.range 90).filterMap (dailyStep cfg now occupied)).take count

/-! ## Queue store (`src/src/database.py`)

`platform_logs` is a TEXT column always written as `json.dumps(value)`.
We represent the stored text by the value it encodes (`json.dumps` is
injective and `json.loads` is its inverse): a dict encodes to `mapEnc`,
and a Python `str` that itself holds previously stored JSON text encodes
to `strEnc` (double encoding, as produced when a raw column value is
passed back to `update_queue_status`).  `json.dumps` never yields the
empty string, so a stored text is never falsy. -/

/-- A Python dict of platform key → outcome text, in insertion order. -/
abbrev Logs := List (String × String)

def logsGet : Logs → String → Option String
  | [], _ => none
  | (k', v) :: rest, k => if k' = k then some v else logsGet rest k

/-- `d[k] = v` on a Python dict: overwrite in place, else append. -/
def logsSet : Logs → String → String → Logs
  | [], k, v => [(k, v)]
  | (k', v') :: rest, k, v =>
      if k' = k then (k', v) :: rest else (k', v') :: logsSet rest k v

/-- `del d[k]` on a Python dict (keys are unique). -/
def logsErase : Logs → String → Logs
  | [], _ => []
  | (k', v') :: rest, k => if k' = k then rest else (k', v') :: logsErase rest k

/-- The stored `platform_logs` text, identified by the value it encodes. -/
inductive LogsCol where
  | mapEnc (m : Logs)
  | strEnc (c : LogsCol)
deriving Repr, DecidableEq

/-- The Python value `json.loads` returns for a stored column text. -/
inductive Loaded where
  | ldict (m : Logs)
  | lstr (c : LogsCol)
deriving Repr, DecidableEq

/-- `json.loads` on a stored column text. -/
def loadCol : LogsCol → Loaded
  | .mapEnc m => .ldict m
  | .strEnc c => .lstr c

/-- The Python value passed as `platform_logs` to `update_queue_status`:
a dict, a raw column text (a Python `str`), or `None`. -/
inductive LogsArg where
  | adict (m : Logs)
  | astr (c : LogsCol)
  | anone
deriving Repr, DecidableEq

/-- `json.dumps(platform_logs or {})` in `update_queue_status`
(src/src/database.py lines 268-289): `None`, `""` and `{}` are falsy and
encode as `{}`; a dict is encoded once; a `str` holding stored JSON text
(never empty) is encoded a second time. -/
def encodeLogsArg : LogsArg → LogsCol
  | .adict m => .mapEnc m
  | .astr c => .strEnc c
  | .anone => .mapEnc []

/-- Pass a loaded Python value back to `update_queue_status`. -/
def loadedArg : Loaded → LogsArg
  | .ldict m => .adict m
  | .lstr c => .astr c

/-- Pass the raw column value (`row["platform_logs"]`) to
`update_queue_status`, as `reset_stale_tasks` does. -/
def rawArg : Option LogsCol → LogsArg
  | none => .anone
  | some c => .astr c

/-- One row of the `queue` table (title/description and per-platform
override columns carry no control flow relevant here and are omitted). -/
structure Job where
  id : Nat
  filePath : String
  scheduledFor : Option Nat
  status : String
  attempts : Nat
  lastError : Option String
  platformLogs : Option LogsCol
  enabledPlatforms : Option (List String)
deriving Repr, DecidableEq

/-- One row of the `uploads` (archive) table. -/
structure Upload where
  id : Nat
  queueId : Nat
  filePath : String
  uploadedAt : Nat
  platformLogs : Logs
deriving Repr, DecidableEq

/-- The persistent store: queue rows, archive rows, the key-value
`settings` table, and the `uploads` AUTOINCREMENT counter. -/
structure Db where
  queue : List Job
  uploads : List Upload
  settings : List (String × String)
  nextUploadId : Nat
  schedule : Option Schedule
deriving Repr, DecidableEq

/-- `get_config(key)` (src/src/database.py lines 151-155). -/
def getConfig (db : Db) (key : String) : Option String :=
  logsGet db.settings key

/-- `set_config(key, value)` (lines 141-148), `INSERT OR REPLACE`. -/
def setConfig (db : Db) (key value : String) : Db :=
  { db with settings := logsSet db.settings key value }

def pauseKey : String := "queue_paused"
def forceKey : String := "queue_force_run"
def forcePlatformKey : String := "queue_force_platform"

/-- `bool(int(get_config(KEY, 0) or 0))`: missing keys and the falsy
strings `""`/`"0"` give `False`; the worker and UI only store decimal
numerals, and any other numeral gives `True`. -/
def flagVal : Option String → Bool
  | none => false
  | some s => !(s == "" || s == "0")

/-- `increment_attempts` (lines 259-265). -/
def incrementAttempts (db : Db) (queueId : Nat) : Db :=
  { db with queue := db.queue.map fun j =>
      if j.id = queueId then { j with attempts := j.attempts + 1 } else j }

/-- `update_queue_status` (lines 268-289): one transaction overwriting
status, last_error and the whole `platform_logs` column. -/
def updateQueueStatus (db : Db) (queueId : Nat) (status : String)
    (lastError : Option String) (arg : LogsArg) : Db :=
  { db with queue := db.queue.map fun j =>
      if j.id = queueId then
        { j with status := status, lastError := lastError,
                 platformLogs := some (encodeLogsArg arg) }
      else j }

/-- `reschedule_queue_item` (lines 292-299). -/
def rescheduleQueueItem (db : Db) (queueId : Nat) (scheduledFor : Option Nat) : Db :=
  { db with queue := db.queue.map fun j =>
      if j.id = queueId then { j with scheduledFor := scheduledFor } else j }

/-- `archive_uploaded_item` (lines 369-394): a single transaction that
inserts exactly one `uploads` row and deletes the queue row. -/
def archiveUploadedItem (db : Db) (row : Job) (logs : Logs) (uploadedAt : Nat) : Db :=
  { db with
      uploads := db.uploads ++ [⟨db.nextUploadId, row.id, row.filePath, uploadedAt, logs⟩],
      queue := db.queue.filter fun j => j.id ≠ row.id,
      nextUploadId := db.nextUploadId + 1 }

/-- Insertion sort on a boolean `le`, total for our keyed orders. -/
def insertLe {α : Type} (le : α → α → Bool) (a : α) : List α → List α
  | [] => [a]
  | b :: rest => if le a b then a :: b :: rest else b :: insertLe le a rest

def sortLe {α : Type} (le : α → α → Bool) : List α → List α
  | [] => []
  | a :: rest => insertLe le a (sortLe le rest)

/-- The `ORDER BY (scheduled_for IS NULL), scheduled_for ASC, id ASC` key
shared by `get_queue` and `get_due_queue`; the unique `id` makes it total. -/
def jobKey (j : Job) : Nat × Nat × Nat :=
  (if j.scheduledFor = none then 1 else 0, j.scheduledFor.getD 0, j.id)

def jobLe (a b : Job) : Bool :=
  let ka := jobKey a
  let kb := jobKey b
  ka.1.blt kb.1 ||
    (ka.1 == kb.1 &&
      (ka.2.1.blt kb.2.1 || (ka.2.1 == kb.2.1 && ka.2.2.ble kb.2.2)))

/-- `get_queue(limit)` (src/src/database.py lines 215-230): active rows
(status ≠ 'uploaded'), ordered, first `limit`. -/
def getQueue (db : Db) (limit : Nat) : List Job :=
  (sortLe jobLe (db.queue.filter fun j => j.status != "uploaded")).take limit

/-- `get_due_queue(now)` (lines 233-249): pending/retry rows whose
`scheduled_for` is NULL or ≤ now, same ordering, no limit. -/
def getDueQueue (db : Db) (now : Nat) : List Job :=
  sortLe jobLe (db.queue.filter fun j =>
    (j.status == "pending" || j.status == "retry") &&
      (match j.scheduledFor with
       | none => true
       | some t => t ≤ now))

/-- `ORDER BY uploaded_at DESC, id DESC` used by `get_uploaded_items`. -/
def uploadLe (a b : Upload) : Bool :=
  b.uploadedAt.blt a.uploadedAt ||
    (b.uploadedAt == a.uploadedAt && b.id.ble a.id)

/-- `get_uploaded_items(limit)` (lines 404-418).  Its docstring promises
"the oldest uploaded items first", but the query orders by
`uploaded_at DESC, id DESC` — newest first. -/
def getUploadedItems (db : Db) (limit : Nat) : List Upload :=
  (sortLe uploadLe db.uploads).take limit

/-- `delete_uploaded_item` (lines 397-401). -/
def deleteUploadedItem (db : Db) (uploadId : Nat) : Db :=
  { db with uploads := db.uploads.filter fun u => u.id ≠ uploadId }

/-- `cleanup_uploaded(count)` (lines 309-329): walk the rows selected by
`get_uploaded_items(count)`, remove each backing file that exists (adding
its size to `bytes_freed`), delete each row, and return the final store,
file system, `items_deleted` and `bytes_freed`.  The file system is a
partial map from path to file size. -/
def cleanupUploaded (files : String → Option Nat) (db : Db) (count : Nat) :
    Db × (String → Option Nat) × Nat × Nat :=
  (getUploadedItems db count).foldl
    (fun acc row =>
      let (d, fs, deleted, freed) := acc
      let (fs', freed') :=
        match fs row.filePath with
        | some size => ((fun p => if p = row.filePath then none else fs p), freed + size)
        | none => (fs, freed)
      (deleteUploadedItem d row.id, fs', deleted + 1, freed'))
    (db, files, 0, 0)

/-- `clear_platform_status(queue_id, platform_key)` (lines 464-495): parse
the stored logs, and when the key is present delete it and store the
re-encoded dict, returning `True`; otherwise return `False`.  When the
stored text is double-encoded, `json.loads` yields a Python `str`, `in`
becomes a substring test on that text (abstracted by `subOccurs`), and a
hit makes `del logs[platform_key]` raise an uncaught `TypeError`,
modelled as `none`. -/
def clearPlatformStatus (subOccurs : LogsCol → String → Bool)
    (db : Db) (queueId : Nat) (platformKey : String) : Option (Db × Bool) :=
  match db.queue.find? (fun j => j.id == queueId) with
  | none => some (db, false)
  | some j =>
    match j.platformLogs with
    | none => some (db, false)
    | some (.mapEnc m) =>
        if (logsGet m platformKey).isSome then
          some
            ({ db with queue := db.queue.map fun j' =>
                if j'.id = queueId then
                  { j' with platformLogs := some (.mapEnc (logsErase m platformKey)) }
                else j' },
              true)
        else some (db, false)
    | some (.strEnc c) =>
        if subOccurs (.strEnc c) platformKey then none else some (db, false)

/-- `reset_stale_tasks` (src/run_worker.py lines 147-163): reset every
'processing' row among the first 1000 active rows to 'pending', passing the
**raw** `platform_logs` column value back to `update_queue_status`. -/
def resetStaleTasks (db : Db) : Db :=
  ((getQueue db 1000).filter fun j => j.status == "processing").foldl
    (fun d task => updateQueueStatus d task.id "pending" none (rawArg task.platformLogs))
    db

/-! ## Dispatch engine (`process_video`, src/run_worker.py lines 166-423) -/

/-- One registered connector during a single dispatch: registry key and
label, plus the outcomes of the external calls made this dispatch
(`connected()`, the preflight check, and the uploader; an uploader
exception is folded into a `(False, str(e))` result by the try/except at
lines 331-338, exactly as the source does). -/
structure Platform where
  key : String
  label : String
  connected : Bool
  preflight : Bool × String
  upload : Bool × String
deriving Repr, DecidableEq

/-- `pat` is a prefix of the character list. -/
def charsStartsWith : List Char → List Char → Bool
  | [], _ => true
  | _ :: _, [] => false
  | a :: as, b :: bs => a == b && charsStartsWith as bs

/-- `pat` occurs somewhere in the character list. -/
def charsContains (pat : List Char) : List Char → Bool
  | [] => pat.isEmpty
  | c :: rest => charsStartsWith pat (c :: rest) || charsContains pat rest

/-- Python's `pat in s` substring test. -/
def containsSub (s pat : String) : Bool := charsContains pat.data s.data

/-- Python's `str.lower()`. -/
def lowerStr (s : String) : String := String.mk (s.data.map Char.toLower)

/-- `"success" in str(prev).lower() or "uploaded id" in str(prev).lower()`
(lines 276-277). -/
def markedSuccess (prev : String) : Bool :=
  containsSub (lowerStr prev) "success" || containsSub (lowerStr prev) "uploaded id"

/-- Accumulator of the per-platform loop (lines 256-355); `attempted`
records the keys whose uploader was actually invoked (line 330). -/
structure RunAcc where
  logs : Logs
  successes : List String
  failures : List (String × String)
  missing : List String
  stagedFailed : Bool
  attempted : List String
deriving Repr, DecidableEq

/-- One iteration of the platform loop, in source order: staged-mode skip,
forced-platform skip, per-video enabled skip, already-succeeded skip,
connection check, preflight, upload. -/
def stepPlatform (stagedEnabled : Bool) (testKey : String) (forced : List String)
    (enabledSel : Option (List String)) (acc : RunAcc) (idx : Nat) (p : Platform) :
    RunAcc :=
  if stagedEnabled && acc.stagedFailed && idx != 0 then
    { acc with logs := logsSet acc.logs p.key "Skipped due to test platform failure" }
  else if !forced.isEmpty && !forced.contains p.key then acc
  else if (match enabledSel with
           | some es => !es.contains p.key
           | none => false) then acc
  else
    let prev := (logsGet acc.logs p.key).getD ""
    if markedSuccess prev then
      { acc with successes := acc.successes ++ [p.label] }
    else if !p.connected then
      { acc with logs := logsSet acc.logs p.key (p.label ++ " not connected."),
                 missing := acc.missing ++ [p.label] }
    else if !p.preflight.1 then
      { acc with logs := logsSet acc.logs p.key p.preflight.2,
                 failures := acc.failures ++ [(p.label, p.preflight.2)] }
    else
      let ok := p.upload.1
      let message := p.upload.2
      let acc' := { acc with attempted := acc.attempted ++ [p.key],
                             logs := logsSet acc.logs p.key message }
      if ok then { acc' with successes := acc'.successes ++ [p.label] }
      else
        { acc' with failures := acc'.failures ++ [(p.label, message)],
                    stagedFailed := acc'.stagedFailed ||
                      (stagedEnabled && idx == 0 && p.key == testKey) }

/-- The whole platform loop, folding `stepPlatform` over the enumerated
items with `current_logs` initialised to the previous logs (line 230). -/
def runPlatforms (stagedEnabled : Bool) (testKey : String) (forced : List String)
    (enabledSel : Option (List String)) (prev : Logs) (items : List Platform) : RunAcc :=
  items.enum.foldl
    (fun acc ip => stepPlatform stagedEnabled testKey forced enabledSel acc ip.1 ip.2)
    ⟨prev, [], [], [], false, []⟩

/-- The iteration order built at lines 234-253: with staged uploads on and
the test platform registered, the test platform first and the others
shuffled behind it; otherwise the whole registry shuffled
(`_platform_shuffle_enabled()` is constantly `True`).  The random shuffle
is the only nondeterminism and is a parameter. -/
def buildItems (shuffle : List Platform → List Platform) (registry : List Platform)
    (stagedEnabled : Bool) (testKey : String) : List Platform :=
  if stagedEnabled && registry.any (fun p => p.key == testKey) then
    (registry.filter fun p => p.key == testKey) ++
      shuffle (registry.filter fun p => p.key != testKey)
  else shuffle registry

/-- `total_platforms_to_try` (lines 359-364): registered platforms not
excluded by the per-video selection and currently connected. -/
def countTargets (registry : List Platform) (enabledSel : Option (List String)) : Nat :=
  (registry.filter fun p =>
    (match enabledSel with
     | some es => es.contains p.key
     | none => true) && p.connected).length

/-- The `error_msg` assembled in the zero-success branch (lines 399-405). -/
def zeroSuccessMsg (failures : List (String × String)) (missing : List String) : String :=
  let parts :=
    (if failures.isEmpty then [] else
      [String.intercalate "; " (failures.map fun lm => lm.1 ++ ": " ++ lm.2)]) ++
    (if missing.isEmpty then [] else
      ["Awaiting account connections: " ++ String.intercalate ", " missing])
  if parts.isEmpty then "Awaiting account connections." else String.intercalate "; " parts

/-- The aggregation of lines 357-423: full success archives; partial
success (some successes, some failures) archives and pauses the queue;
otherwise the job is marked failed and the queue pauses.  `set_config`
stores `str(1) = "1"`. -/
def finalizeOutcome (db : Db) (video : Job) (r : RunAcc) (total : Nat) (now : Nat) : Db :=
  if r.successes.length = total ∧ r.failures = [] then
    archiveUploadedItem db video r.logs now
  else if r.successes ≠ [] ∧ r.failures ≠ [] then
    setConfig (archiveUploadedItem db video r.logs now) pauseKey "1"
  else
    setConfig
      (updateQueueStatus db video.id "failed"
        (some (zeroSuccessMsg r.failures r.missing)) (.adict r.logs))
      pauseKey "1"

/-- `process_video` up to the `processing` status write (lines 166-205):
`none` when the pause flag makes the call return immediately; otherwise
the store after `increment_attempts` and
`update_queue_status(id, "processing", None, previous_logs)`, together
with the parsed previous logs (a Python `str` when the column was
double-encoded). -/
def prevLoaded (video : Job) : Loaded :=
  match video.platformLogs with
  | none => .ldict []
  | some c => loadCol c

/-- The store after `increment_attempts(id)` (line 202) and
`update_queue_status(id, "processing", None, previous_logs)` (line 205). -/
def preDispatchDb (db : Db) (video : Job) : Db :=
  updateQueueStatus (incrementAttempts db video.id) video.id "processing" none
    (loadedArg (prevLoaded video))

def processVideoPre (db : Db) (video : Job) : Option (Db × Loaded) :=
  if flagVal (getConfig db pauseKey) then none
  else some (preDispatchDb db video, prevLoaded video)

/-- The staged-mode flags read at lines 238-239 and the platform loop over
the built iteration order, as one aggregate result. -/
def dispatchAgg (shuffle : List Platform → List Platform) (registry : List Platform)
    (db : Db) (video : Job) (forced : List String) (prevLogs : Logs) : RunAcc :=
  let stagedEnabled := flagVal (getConfig db "staged_uploads_enabled")
  let testKey := (getConfig db "staged_upload_test_platform").getD "youtube"
  runPlatforms stagedEnabled testKey forced video.enabledPlatforms prevLogs
    (buildItems shuffle registry stagedEnabled testKey)

/-- `process_video` after the pre-stage: the file-integrity gate (lines
207-212) marks the job failed with a fresh `{"error": msg}` log; then
`current_logs = previous_logs.copy()` (line 230) raises `AttributeError`
when the previous logs loaded as a `str`, modelled as a `some`-message
second component; otherwise the platform loop runs and the outcome is
aggregated. -/
def processVideoRest (shuffle : List Platform → List Platform)
    (registry : List Platform) (files : String → Option Nat) (now : Nat)
    (db : Db) (video : Job) (forced : List String) (prev : Loaded) :
    Db × Option String :=
  if files video.filePath = none ∨ files video.filePath = some 0 then
    let msg := "File missing or empty for queue #" ++ toString video.id ++ ": " ++
      video.filePath
    (updateQueueStatus db video.id "failed" (some msg) (.adict [("error", msg)]), none)
  else
    match prev with
    | .lstr _ => (db, some "AttributeError: str object has no attribute copy")
    | .ldict prevLogs =>
      let r := dispatchAgg shuffle registry db video forced prevLogs
      (finalizeOutcome db video r (countTargets registry video.enabledPlatforms) now,
        none)

/-- `process_video(video, forced_platforms)` (src/run_worker.py lines
166-423).  The second component carries the message of an uncaught
exception, if any; the first is the persistent store when the call ends
(mutations before an exception persist). -/
def processVideo (shuffle : List Platform → List Platform)
    (registry : List Platform) (files : String → Option Nat) (now : Nat)
    (db : Db) (video : Job) (forced : List String) : Db × Option String :=
  match processVideoPre db video with
  | none => (db, none)
  | some (db2, prev) => processVideoRest shuffle registry files now db2 video forced prev

/-! ## Worker loop (`check_and_post`, src/run_worker.py lines 426-479)

`Db.schedule` carries the decoded `publish_schedule` settings row
(`none` when absent or unparsable).  The daily token checks and the
TikTok session warning at the top of the tick (lines 428-430) touch only
their own warning keys and external services, never the queue, and are
outside the scope of the embedded tick body. -/

def defaultSchedule : Schedule := ⟨[0, 1, 2, 3, 4, 5, 6], [660]⟩

/-- `_normalize_schedule` (src/src/scheduling.py lines 16-39): keep
weekdays in 0..6 (as a sorted set) and parseable times (sorted), falling
back to the documented defaults when a list empties. -/
def normalizeSchedule : Option Schedule → Schedule
  | none => defaultSchedule
  | some cfg =>
    let days := sortLe (fun a b => a.ble b) ((cfg.days.filter fun d => d.blt 7).dedup)
    let times := sortLe (fun a b => a.ble b)
      (cfg.times.filter fun t => t.blt minutesPerDay)
    ⟨if days.isEmpty then defaultSchedule.days else days,
     if times.isEmpty then defaultSchedule.times else times⟩

/-- `get_schedule` (lines 42-47): normalize the stored config and persist
the repaired form when it differs. -/
def getScheduleDb (db : Db) : Schedule × Db :=
  let normalized := normalizeSchedule db.schedule
  if db.schedule = some normalized then (normalized, db)
  else (normalized, { db with schedule := some normalized })

/-- `_pull_queue_forward(now)` (src/run_worker.py lines 114-131): move the
remaining pending/retry rows onto the earliest daily slots from `now`. -/
def pullQueueForward (db : Db) (now : Nat) : Db :=
  let pending := (getQueue db 200).filter fun j =>
    j.status == "pending" || j.status == "retry"
  if pending.isEmpty then db
  else
    let cfgDb := getScheduleDb db
    let slots := nextDailySlots cfgDb.1 pending.length now []
    (pending.zip slots).foldl (fun d rs => rescheduleQueueItem d rs.1.id (some rs.2))
      cfgDb.2

/-- The per-tick job loop (lines 460-470): process the due snapshots in
order and stop at the first uncaught exception. -/
def processLoop (shuffle : List Platform → List Platform) (registry : List Platform)
    (files : String → Option Nat) (now : Nat) (forcePlatform : String) :
    List Job → Db → Db × Option String
  | [], db => (db, none)
  | video :: rest, db =>
      if video.status == "pending" || video.status == "retry" then
        match processVideo shuffle registry files now db video
            (if forcePlatform != "" then [forcePlatform] else []) with
        | (db', none) => processLoop shuffle registry files now forcePlatform rest db'
        | (db', some e) => (db', some e)
      else processLoop shuffle registry files now forcePlatform rest db

/-- `check_and_post` (lines 426-479) from the schedule read in
`_now_with_timezone` and the busy check on: skip when busy or when paused
without force; otherwise fetch the due rows (falling back to the earliest
pending/retry row under force), clear the force flags, run the loop, and
pull the queue forward after a force run.  The `except` at lines 476-479
catches any exception from the loop, so the tick always returns a store;
an exception also skips the pull-forward step. -/
def checkAndPost (shuffle : List Platform → List Platform) (registry : List Platform)
    (files : String → Option Nat) (busy : Bool) (db0 : Db) (now : Nat) : Db :=
  let db := (getScheduleDb db0).2
  if busy then db
  else
    let paused := flagVal (getConfig db pauseKey)
    let force := flagVal (getConfig db forceKey)
    let fp0 := (getConfig db forcePlatformKey).getD ""
    let forcePlatform :=
      if fp0 != "" && !(registry.any fun p => p.key == fp0) then "" else fp0
    if paused && !force then db
    else
      let due0 := getDueQueue db now
      let due :=
        if due0.isEmpty && force then
          ((getQueue db 200).filter fun j =>
            j.status == "pending" || j.status == "retry").take 1
        else due0
      let db1 := if force then setConfig (setConfig db forceKey "0") forcePlatformKey ""
        else db
      if due.isEmpty then db1
      else
        match processLoop shuffle registry files now forcePlatform due db1 with
        | (db', some _) => db'
        | (db', none) => if force then pullQueueForward db' now else db'

/-! ## Concrete instances used by witnesses and counterexamples -/

/-- A YouTube connector whose upload succeeds this dispatch. -/
def ytOk : Platform := ⟨"youtube", "YouTube", true, (true, ""), (true, "Uploaded ID: 42")⟩

/-- A YouTube connector whose upload fails this dispatch. -/
def ytFail : Platform := ⟨"youtube", "YouTube", true, (true, ""), (false, "quota exceeded")⟩

/-- An Instagram connector whose upload would succeed this dispatch. -/
def igOk : Platform := ⟨"instagram", "Instagram", true, (true, ""), (true, "success")⟩

/-- A file system holding one 5-byte video file. -/
def egFiles : String → Option Nat := fun p => if p = "a.mp4" then some 5 else none

/-- A fresh pending job due at minute 0. -/
def jobA : Job := ⟨1, "a.mp4", some 0, "pending", 0, none, none, none⟩

/-- A one-job queue, nothing paused, no staged uploads configured. -/
def dbA : Db := ⟨[jobA], [], [], 1, none⟩

/-- `dbA` after the pre-stage of dispatching `jobA`. -/
def dbAmid : Db := preDispatchDb dbA jobA

/-- A job whose `platform_logs` column was double-encoded (as
`reset_stale_tasks` produces), due at minute 10. -/
def jobStr : Job :=
  ⟨1, "a.mp4", some 10, "pending", 0, none,
    some (.strEnc (.mapEnc [("youtube", "success")])), none⟩

/-- A second, healthy job due at minute 20. -/
def jobB : Job := ⟨2, "a.mp4", some 20, "pending", 0, none, none, none⟩

/-- Two due jobs; the first has double-encoded logs. -/
def dbC3 : Db := ⟨[jobStr, jobB], [], [], 1, some defaultSchedule⟩

/-- `dbC3` after the pre-stage of dispatching `jobStr`. -/
def dbC3mid : Db := preDispatchDb dbC3 jobStr

/-- A job whose logs already mark youtube as a success. -/
def jobDone : Job :=
  ⟨1, "a.mp4", some 0, "pending", 1, none, some (.mapEnc [("youtube", "success")]), none⟩

def dbC4 : Db := ⟨[jobDone], [], [], 1, none⟩

/-- Archive rows: id 1 is the oldest (uploaded_at 100), id 2 the newest. -/
def upOld : Upload := ⟨1, 10, "old.mp4", 100, []⟩
def upNew : Upload := ⟨2, 11, "new.mp4", 200, []⟩
def dbC7 : Db := ⟨[], [upOld, upNew], [], 3, none⟩
def filesC7 : String → Option Nat :=
  fun p => if p = "old.mp4" then some 10 else if p = "new.mp4" then some 20 else none

/-- A job stuck in 'processing' with a platform already marked success. -/
def jobStale : Job :=
  ⟨1, "a.mp4", none, "processing", 2, none, some (.mapEnc [("youtube", "success")]), none⟩

def dbC9 : Db := ⟨[jobStale], [], [], 1, none⟩

theorem mem_daySlots {times : List Nat} {date now s : Nat}
    (h : s ∈ daySlots times date now) :
    ∃ t ∈ times, s = date * minutesPerDay + t ∧ now < s := by
  unfold daySlots at h
  simp only [List.mem_filter, List.mem_map, decide_eq_true_eq] at h
  obtain ⟨⟨t, ht, rfl⟩, hlt⟩ := h
  exact ⟨t, ht, rfl, hlt⟩

theorem daySlots_date {times : List Nat} (hv : ∀ t ∈ times, t < minutesPerDay)
    {date now s : Nat} (h : s ∈ daySlots times date now) :
    s / minutesPerDay = date ∧ s % minutesPerDay ∈ times := by
  obtain ⟨t, ht, rfl, _⟩ := mem_daySlots h
  have htlt := hv t ht
  simp only [minutesPerDay] at *
  constructor
  · omega
  · have : (date * 1440 + t) % 1440 = t := by omega
    simpa [this] using ht

theorem mem_dailyStep {cfg : Schedule} {now : Nat} {occupied : List Nat}
    {off s : Nat} (h : dailyStep cfg now occupied off = some s) :
    (now / minutesPerDay + off) % 7 ∈ cfg.days ∧
      (now / minutesPerDay + off) ∉ occupied ∧
      s ∈ daySlots cfg.times (now / minutesPerDay + off) now := by
  by_cases hc : (now / minutesPerDay + off) % 7 ∈ cfg.days ∧
      (now / minutesPerDay + off) ∉ occupied
  · refine ⟨hc.1, hc.2, List.mem_of_mem_head? ?_⟩
    simpa [dailyStep, hc] using h
  · simp [dailyStep, hc] at h

theorem dailyStep_div {cfg : Schedule} {now : Nat} {occupied : List Nat}
    (hv : ∀ t ∈ cfg.times, t < minutesPerDay)
    {off s : Nat} (h : dailyStep cfg now occupied off = some s) :
    s / minutesPerDay = now / minutesPerDay + off :=
  (daySlots_date hv (mem_dailyStep h).2.2).1

theorem mem_nextDailySlots {cfg : Schedule} {count now : Nat} {occupied : List Nat}
    {s : Nat} (h : s ∈ nextDailySlots cfg count now occupied) :
    ∃ off, off < 90 ∧ dailyStep cfg now occupied off = some s := by
  unfold nextDailySlots at h
  have h' := List.mem_of_mem_take h
  obtain ⟨off, hoff, hsome⟩ := List.mem_filterMap.1 h'
  exact ⟨off, List.mem_range.1 hoff, hsome⟩

/-- C5: for every valid schedule config, count, anchor, and occupied-date
set, `next_daily_slots` returns at most one slot per calendar date, the
timestamps are strictly increasing, every slot falls on an enabled weekday
at one of the configured times, and no slot's date is occupied. -/
theorem C5_nextDailySlots_correct (cfg : Schedule) (count now : Nat)
    (occupied : List Nat) (hv : ValidSchedule cfg) :
    ((nextDailySlots cfg count now occupied).map (· / minutesPerDay)).Nodup ∧
    (nextDailySlots cfg count now occupied).Pairwise (· < ·) ∧
    ∀ s ∈ nextDailySlots cfg count now occupied,
      (s / minutesPerDay) % 7 ∈ cfg.days ∧ s % minutesPerDay ∈ cfg.times ∧
        s / minutesPerDay ∉ occupied := by
  obtain ⟨-, -, -, htimes⟩ := hv
  have hdates :
      ((List.range 90).filterMap (dailyStep cfg now occupied)).Pairwise
        (fun a b => a / minutesPerDay < b / minutesPerDay) := by
    refine List.Pairwise.filterMap _ ?_ (List.pairwise_lt_range 90)
    intro i j hij a ha b hb
    rw [dailyStep_div htimes ha, dailyStep_div htimes hb]
    omega
  have hdatesTake :
      (nextDailySlots cfg count now occupied).Pairwise
        (fun a b => a / minutesPerDay < b / minutesPerDay) :=
    List.Pairwise.sublist (List.take_sublist _ _) hdates
  refine ⟨?_, ?_, ?_⟩
  · exact List.pairwise_map.2 (hdatesTake.imp fun hab => Nat.ne_of_lt hab)
  · exact hdatesTake.imp fun {a b} hab => by
      simp only [minutesPerDay] at hab ⊢; omega
  · intro s hs
    obtain ⟨off, -, hsome⟩ := mem_nextDailySlots hs
    obtain ⟨hday, hocc, hmem⟩ := mem_dailyStep hsome
    obtain ⟨hdiv, hmod⟩ := daySlots_date htimes hmem
    rw [hdiv]
    exact ⟨hday, hmod, hocc⟩

/-- Witness for C5 at a concrete schedule (Mon/Tue at 09:00), three slots
requested from Monday 10:00 with Tuesday (date 1) occupied. -/
theorem C5_nextDailySlots_correct_witness :
    ValidSchedule ⟨[0, 1], [540]⟩ ∧
    (((nextDailySlots ⟨[0, 1], [540]⟩ 3 600 [1]).map (· / minutesPerDay)).Nodup ∧
      (nextDailySlots ⟨[0, 1], [540]⟩ 3 600 [1]).Pairwise (· < ·) ∧
      ∀ s ∈ nextDailySlots ⟨[0, 1], [540]⟩ 3 600 [1],
        (s / minutesPerDay) % 7 ∈ ([0, 1] : List Nat) ∧
          s % minutesPerDay ∈ ([540] : List Nat) ∧ s / minutesPerDay ∉ ([1] : List Nat)) :=
  ⟨by decide, C5_nextDailySlots_correct ⟨[0, 1], [540]⟩ 3 600 [1] (by decide)⟩

/-- C6: no slot returned by `next_slots` or `next_daily_slots` is ≤ the
anchor, and with all weekdays at 09:00 and anchor Monday 10:00 (minute 600
of Monday day 0) the first slot of both walks is Tuesday 09:00 (minute
1980). -/
theorem C6_slots_strictly_after_anchor :
    (∀ cfg count now, ∀ s ∈ nextSlots cfg count now, now < s) ∧
    (∀ cfg count now occupied, ∀ s ∈ nextDailySlots cfg count now occupied, now < s) ∧
    nextSlots ⟨[0, 1, 2, 3, 4, 5, 6], [540]⟩ 1 600 = [1980] ∧
    nextDailySlots ⟨[0, 1, 2, 3, 4, 5, 6], [540]⟩ 1 600 [] = [1980] := by
  refine ⟨?_, ?_, by decide, by decide⟩
  · intro cfg count now s hs
    have h' := List.mem_of_mem_take (by simpa [nextSlots] using hs)
    obtain ⟨off, -, hmem⟩ := List.mem_flatMap.1 h'
    exact (mem_daySlots hmem).choose_spec.2.2
  · intro cfg count now occupied s hs
    obtain ⟨off, -, hsome⟩ := mem_nextDailySlots hs
    exact (mem_daySlots (mem_dailyStep hsome).2.2).choose_spec.2.2

/-- Witness for C6, discharging the membership hypotheses at the concrete
slot 1980 returned for anchor 600. -/
theorem C6_slots_strictly_after_anchor_witness :
    (600 : Nat) < 1980 ∧ (600 : Nat) < 1980 :=
  ⟨C6_slots_strictly_after_anchor.1 ⟨[0, 1, 2, 3, 4, 5, 6], [540]⟩ 1 600 1980 (by decide),
    C6_slots_strictly_after_anchor.2.1 ⟨[0, 1, 2, 3, 4, 5, 6], [540]⟩ 1 600 [] 1980
      (by decide)⟩

/-! ## Frame lemmas for the store operations -/

theorem setConfig_queue (db : Db) (k v : String) : (setConfig db k v).queue = db.queue :=
  rfl

theorem mem_updateQueueStatus_queue {db : Db} {qid : Nat} {st : String}
    {le : Option String} {arg : LogsArg} {j : Job}
    (hj : j ∈ (updateQueueStatus db qid st le arg).queue) :
    ∃ j0 ∈ db.queue, j.id = j0.id ∧ j.attempts = j0.attempts ∧
      j.scheduledFor = j0.scheduledFor := by
  unfold updateQueueStatus at hj
  simp only [List.mem_map] at hj
  obtain ⟨j0, h0, rfl⟩ := hj
  refine ⟨j0, h0, ?_⟩
  by_cases h : j0.id = qid <;> simp [h]

theorem mem_incrementAttempts_queue {db : Db} {qid : Nat} {j : Job}
    (hj : j ∈ (incrementAttempts db qid).queue) :
    ∃ j0 ∈ db.queue, j.id = j0.id ∧
      j.attempts = (if j0.id = qid then j0.attempts + 1 else j0.attempts) ∧
      j.scheduledFor = j0.scheduledFor := by
  unfold incrementAttempts at hj
  simp only [List.mem_map] at hj
  obtain ⟨j0, h0, rfl⟩ := hj
  refine ⟨j0, h0, ?_⟩
  by_cases h : j0.id = qid <;> simp [h]

theorem mem_archiveUploadedItem_queue {db : Db} {row : Job} {logs : Logs} {t : Nat}
    {j : Job} (hj : j ∈ (archiveUploadedItem db row logs t).queue) :
    j ∈ db.queue ∧ j.id ≠ row.id := by
  unfold archiveUploadedItem at hj
  simp only [List.mem_filter, decide_eq_true_eq] at hj
  exact hj

theorem preDispatchDb_attempts {db : Db} {video : Job} {j : Job}
    (hj : j ∈ (preDispatchDb db video).queue) (hid : j.id = video.id) :
    ∃ j0 ∈ db.queue, j0.id = video.id ∧ j.attempts = j0.attempts + 1 := by
  obtain ⟨j1, h1, hid1, hatt1, -⟩ := mem_updateQueueStatus_queue hj
  obtain ⟨j0, h0, hid0, hatt0, -⟩ := mem_incrementAttempts_queue h1
  have hidv : j0.id = video.id := by rw [← hid0, ← hid1]; exact hid
  refine ⟨j0, h0, hidv, ?_⟩
  rw [hatt1, hatt0, if_pos hidv]

theorem processVideoRest_attempts_frame {shuffle : List Platform → List Platform}
    {registry : List Platform} {files : String → Option Nat} {now : Nat}
    {db : Db} {video : Job} {forced : List String} {prev : Loaded} {j : Job}
    (hj : j ∈ (processVideoRest shuffle registry files now db video forced prev).1.queue) :
    ∃ j0 ∈ db.queue, j.id = j0.id ∧ j.attempts = j0.attempts := by
  unfold processVideoRest at hj
  by_cases hf : files video.filePath = none ∨ files video.filePath = some 0
  · rw [if_pos hf] at hj
    dsimp only at hj
    obtain ⟨j0, h0, a, b, -⟩ := mem_updateQueueStatus_queue hj
    exact ⟨j0, h0, a, b⟩
  · rw [if_neg hf] at hj
    cases prev with
    | lstr c => exact ⟨j, hj, rfl, rfl⟩
    | ldict m =>
      dsimp only at hj
      unfold finalizeOutcome at hj
      split at hj
      · exact ⟨j, (mem_archiveUploadedItem_queue hj).1, rfl, rfl⟩
      · split at hj
        · rw [setConfig_queue] at hj
          exact ⟨j, (mem_archiveUploadedItem_queue hj).1, rfl, rfl⟩
        · rw [setConfig_queue] at hj
          obtain ⟨j0, h0, a, b, -⟩ := mem_updateQueueStatus_queue hj
          exact ⟨j0, h0, a, b⟩

/-- C10: if the global pause flag is set when `process_video` is invoked,
the call returns with the persistent store untouched — attempts, status,
platform_logs and scheduled_for of every job, the archive, and the
pause/force settings are all exactly as before, and no platform code runs. -/
theorem C10_paused_dispatch_is_noop (shuffle : List Platform → List Platform)
    (registry : List Platform) (files : String → Option Nat) (now : Nat)
    (db : Db) (video : Job) (forced : List String)
    (h : flagVal (getConfig db pauseKey) = true) :
    processVideo shuffle registry files now db video forced = (db, none) := by
  simp [processVideo, processVideoPre, h]

/-- Witness for C10 on a paused one-job store. -/
theorem C10_paused_dispatch_is_noop_witness :
    flagVal (getConfig (setConfig dbA pauseKey "1") pauseKey) = true ∧
    processVideo id [ytOk] egFiles 0 (setConfig dbA pauseKey "1") jobA [] =
      (setConfig dbA pauseKey "1", none) :=
  ⟨by decide,
    C10_paused_dispatch_is_noop id [ytOk] egFiles 0 (setConfig dbA pauseKey "1") jobA []
      (by decide)⟩

/-- C8: a non-paused dispatch increments the job's attempts counter by
exactly one; the increment is already visible in the store produced by the
pre-stage (before any per-platform attempt runs), and no later step of the
dispatch changes the counter again, whatever the outcome. -/
theorem C8_attempts_increment_once (shuffle : List Platform → List Platform)
    (registry : List Platform) (files : String → Option Nat) (now : Nat)
    (db : Db) (video : Job) (forced : List String) (w : Job)
    (hnp : flagVal (getConfig db pauseKey) = false)
    (hw : w ∈ db.queue) (hwid : w.id = video.id)
    (hnd : (db.queue.map Job.id).Nodup) :
    (∀ j ∈ (preDispatchDb db video).queue, j.id = video.id →
        j.attempts = w.attempts + 1) ∧
    processVideoPre db video = some (preDispatchDb db video, prevLoaded video) ∧
    ∀ j ∈ (processVideo shuffle registry files now db video forced).1.queue,
      j.id = video.id → j.attempts = w.attempts + 1 := by
  have hpre : processVideoPre db video =
      some (preDispatchDb db video, prevLoaded video) := by
    simp [processVideoPre, hnp]
  have huniq : ∀ j0 ∈ db.queue, j0.id = video.id → j0 = w := by
    intro j0 h0 hid0
    exact List.inj_on_of_nodup_map hnd h0 hw (by rw [hid0, hwid])
  have hmid : ∀ j ∈ (preDispatchDb db video).queue, j.id = video.id →
      j.attempts = w.attempts + 1 := by
    intro j hj hid
    obtain ⟨j0, h0, hid0, hatt⟩ := preDispatchDb_attempts hj hid
    rw [hatt, huniq j0 h0 hid0]
  refine ⟨hmid, hpre, ?_⟩
  intro j hj hid
  unfold processVideo at hj
  rw [hpre] at hj
  dsimp only at hj
  obtain ⟨j1, h1, hid1, hatt1⟩ := processVideoRest_attempts_frame hj
  rw [hatt1]
  exact hmid j1 h1 (by rw [← hid1]; exact hid)

/-- Witness for C8: the fresh job's counter lands at 1 in both the
pre-stage store and the final store of a failing dispatch. -/
theorem C8_attempts_increment_once_witness :
    (flagVal (getConfig dbA pauseKey) = false ∧ jobA ∈ dbA.queue ∧
      (dbA.queue.map Job.id).Nodup) ∧
    ((∀ j ∈ (preDispatchDb dbA jobA).queue, j.id = jobA.id →
        j.attempts = jobA.attempts + 1) ∧
      processVideoPre dbA jobA = some (preDispatchDb dbA jobA, prevLoaded jobA) ∧
      ∀ j ∈ (processVideo id [ytFail] egFiles 0 dbA jobA []).1.queue,
        j.id = jobA.id → j.attempts = jobA.attempts + 1) :=
  ⟨⟨by decide, by decide, by decide⟩,
    C8_attempts_increment_once id [ytFail] egFiles 0 dbA jobA [] jobA (by decide)
      (by decide) rfl (by decide)⟩

theorem logsGet_logsSet_self (m : Logs) (k v : String) :
    logsGet (logsSet m k v) k = some v := by
  induction m with
  | nil => simp [logsSet, logsGet]
  | cons kv rest ih =>
      by_cases h : kv.1 = k <;> simp [logsSet, logsGet, h, ih]

theorem logsGet_logsSet_ne (m : Logs) (k k' v : String) (h : k' ≠ k) :
    logsGet (logsSet m k' v) k = logsGet m k := by
  induction m with
  | nil => simp [logsSet, logsGet, h]
  | cons kv rest ih =>
      by_cases h1 : kv.1 = k'
      · simp [logsSet, logsGet, h1, h]
      · simp [logsSet, logsGet, h1, ih]

/-- C1 (amended): a dispatch whose aggregation is neither a full success
(all counted platforms succeeded, none failed) nor a partial success (some
succeeded, some failed) — in particular every zero-success dispatch —
marks the job `failed` with the aggregated error message and sets the
queue pause flag, whatever the attempts count; the worker has no retry
status, no MaxAttempts constant, and no backoff reschedule. -/
theorem C1_zero_success_marks_failed (shuffle : List Platform → List Platform)
    (registry : List Platform) (files : String → Option Nat) (now : Nat)
    (db : Db) (video : Job) (forced : List String) (prev : Logs) (sz : Nat)
    (r : RunAcc)
    (hnp : flagVal (getConfig db pauseKey) = false)
    (hprev : prevLoaded video = .ldict prev)
    (hfile : files video.filePath = some sz) (hsz : sz ≠ 0)
    (hr : r = dispatchAgg shuffle registry (preDispatchDb db video) video forced prev)
    (hnotall : ¬(r.successes.length = countTargets registry video.enabledPlatforms ∧
        r.failures = []))
    (hnoPart : ¬(r.successes ≠ [] ∧ r.failures ≠ [])) :
    processVideo shuffle registry files now db video forced =
      (setConfig
        (updateQueueStatus (preDispatchDb db video) video.id "failed"
          (some (zeroSuccessMsg r.failures r.missing)) (.adict r.logs))
        pauseKey "1", none) := by
  have hpre : processVideoPre db video =
      some (preDispatchDb db video, prevLoaded video) := by
    simp [processVideoPre, hnp]
  unfold processVideo
  rw [hpre, hprev]
  dsimp only
  unfold processVideoRest
  rw [if_neg (by simp [hfile, hsz])]
  dsimp only
  rw [← hr]
  unfold finalizeOutcome
  rw [if_neg hnotall, if_neg hnoPart]

/-- C1 counterexample: a first dispatch (attempts incremented to 1 < 3)
with zero platform successes leaves the job `failed` with its schedule
unchanged — not `retry`, and not pushed ≥ 60 minutes out. -/
theorem C1_counterexample :
    (processVideo id [ytFail] egFiles 0 dbA jobA []).1.queue.map
        (fun j => (j.id, j.status, j.attempts, j.scheduledFor)) =
      [(1, "failed", 1, some 0)] ∧ (1 : Nat) < 3 := by decide

/-- Witness for the amended C1 at the concrete failing dispatch. -/
theorem C1_zero_success_marks_failed_witness :
    (flagVal (getConfig dbA pauseKey) = false ∧ prevLoaded jobA = .ldict [] ∧
      egFiles jobA.filePath = some 5) ∧
    processVideo id [ytFail] egFiles 0 dbA jobA [] =
      (setConfig
        (updateQueueStatus (preDispatchDb dbA jobA) jobA.id "failed"
          (some (zeroSuccessMsg
            (dispatchAgg id [ytFail] (preDispatchDb dbA jobA) jobA [] []).failures
            (dispatchAgg id [ytFail] (preDispatchDb dbA jobA) jobA [] []).missing))
          (.adict (dispatchAgg id [ytFail] (preDispatchDb dbA jobA) jobA [] []).logs))
        pauseKey "1", none) :=
  ⟨⟨by decide, rfl, by decide⟩,
    C1_zero_success_marks_failed id [ytFail] egFiles 0 dbA jobA [] [] 5
      (dispatchAgg id [ytFail] (preDispatchDb dbA jobA) jobA [] [])
      (by decide) rfl (by decide) (by decide) rfl (by decide) (by decide)⟩

theorem archiveUploadedItem_uploads (db : Db) (row : Job) (logs : Logs) (t : Nat) :
    (archiveUploadedItem db row logs t).uploads =
      db.uploads ++ [⟨db.nextUploadId, row.id, row.filePath, t, logs⟩] := rfl

theorem setConfig_uploads (db : Db) (k v : String) :
    (setConfig db k v).uploads = db.uploads := rfl

theorem preDispatchDb_uploads (db : Db) (video : Job) :
    (preDispatchDb db video).uploads = db.uploads := rfl

theorem preDispatchDb_nextUploadId (db : Db) (video : Job) :
    (preDispatchDb db video).nextUploadId = db.nextUploadId := rfl

theorem getConfig_setConfig_self (db : Db) (k v : String) :
    getConfig (setConfig db k v) k = some v := by
  unfold getConfig setConfig
  exact logsGet_logsSet_self db.settings k v

/-- C2 (amended): a dispatch that the code classifies as full success
(every counted platform succeeded and none failed) or partial success (at
least one success and at least one failure) inserts exactly one archive
row and removes the job's queue row in the same atomic transaction, so the
archived job retains no active-queue row; on partial success the global
pause flag is additionally set.  (A dispatch with at least one success but
no failure that does not cover all counted platforms — reachable only
under a platform-scoped force run — is instead marked failed; see the
counterexample.) -/
theorem C2_success_archives (shuffle : List Platform → List Platform)
    (registry : List Platform) (files : String → Option Nat) (now : Nat)
    (db : Db) (video : Job) (forced : List String) (prev : Logs) (sz : Nat)
    (r : RunAcc)
    (hnp : flagVal (getConfig db pauseKey) = false)
    (hprev : prevLoaded video = .ldict prev)
    (hfile : files video.filePath = some sz) (hsz : sz ≠ 0)
    (hr : r = dispatchAgg shuffle registry (preDispatchDb db video) video forced prev)
    (hsucc : (r.successes.length = countTargets registry video.enabledPlatforms ∧
        r.failures = []) ∨ (r.successes ≠ [] ∧ r.failures ≠ [])) :
    (processVideo shuffle registry files now db video forced).2 = none ∧
    (processVideo shuffle registry files now db video forced).1.uploads =
      db.uploads ++ [⟨db.nextUploadId, video.id, video.filePath, now, r.logs⟩] ∧
    (∀ j ∈ (processVideo shuffle registry files now db video forced).1.queue,
      j.id ≠ video.id) ∧
    (r.successes ≠ [] ∧ r.failures ≠ [] →
      getConfig (processVideo shuffle registry files now db video forced).1 pauseKey =
        some "1") := by
  have hpre : processVideoPre db video =
      some (preDispatchDb db video, prevLoaded video) := by
    simp [processVideoPre, hnp]
  have hstep : processVideo shuffle registry files now db video forced =
      (finalizeOutcome (preDispatchDb db video) video r
        (countTargets registry video.enabledPlatforms) now, none) := by
    unfold processVideo
    rw [hpre, hprev]
    dsimp only
    unfold processVideoRest
    rw [if_neg (by simp [hfile, hsz])]
    dsimp only
    rw [← hr]
  rcases hsucc with hall | hpart
  · have hfin : finalizeOutcome (preDispatchDb db video) video r
        (countTargets registry video.enabledPlatforms) now =
        archiveUploadedItem (preDispatchDb db video) video r.logs now := by
      unfold finalizeOutcome
      rw [if_pos hall]
    rw [hstep, hfin]
    refine ⟨rfl, ?_, ?_, ?_⟩
    · rw [archiveUploadedItem_uploads, preDispatchDb_uploads, preDispatchDb_nextUploadId]
    · intro j hj
      exact (mem_archiveUploadedItem_queue hj).2
    · intro hp
      exact absurd hp.2 (by simp [hall.2])
  · have hnotall : ¬(r.successes.length = countTargets registry video.enabledPlatforms ∧
        r.failures = []) := by
      intro hc
      exact hpart.2 hc.2
    have hfin : finalizeOutcome (preDispatchDb db video) video r
        (countTargets registry video.enabledPlatforms) now =
        setConfig (archiveUploadedItem (preDispatchDb db video) video r.logs now)
          pauseKey "1" := by
      unfold finalizeOutcome
      rw [if_neg hnotall, if_pos hpart]
    rw [hstep, hfin]
    refine ⟨rfl, ?_, ?_, ?_⟩
    · rw [setConfig_uploads, archiveUploadedItem_uploads, preDispatchDb_uploads,
        preDispatchDb_nextUploadId]
    · intro j hj
      rw [setConfig_queue] at hj
      exact (mem_archiveUploadedItem_queue hj).2
    · intro _
      exact getConfig_setConfig_self _ pauseKey "1"

/-- C2 counterexample: a platform-scoped force run on a two-platform
registry uploads to youtube only; the dispatch ends with one platform
success, yet no archive row is written and the job stays in the active
queue marked `failed`. -/
theorem C2_counterexample :
    (dispatchAgg id [ytOk, igOk] (preDispatchDb dbA jobA) jobA ["youtube"] []).successes =
      ["YouTube"] ∧
    (processVideo id [ytOk, igOk] egFiles 0 dbA jobA ["youtube"]).1.uploads = [] ∧
    (processVideo id [ytOk, igOk] egFiles 0 dbA jobA ["youtube"]).1.queue.map
      (fun j => (j.id, j.status)) = [(1, "failed")] := by decide

/-- Witness for the amended C2: a full-success dispatch on a one-platform
registry archives the job and empties its queue row. -/
theorem C2_success_archives_witness :
    (flagVal (getConfig dbA pauseKey) = false ∧ prevLoaded jobA = .ldict [] ∧
      egFiles jobA.filePath = some 5) ∧
    ((processVideo id [ytOk] egFiles 7 dbA jobA []).2 = none ∧
      (processVideo id [ytOk] egFiles 7 dbA jobA []).1.uploads =
        dbA.uploads ++ [⟨dbA.nextUploadId, jobA.id, jobA.filePath, 7,
          (dispatchAgg id [ytOk] (preDispatchDb dbA jobA) jobA [] []).logs⟩] ∧
      (∀ j ∈ (processVideo id [ytOk] egFiles 7 dbA jobA []).1.queue, j.id ≠ jobA.id) ∧
      ((dispatchAgg id [ytOk] (preDispatchDb dbA jobA) jobA [] []).successes ≠ [] ∧
        (dispatchAgg id [ytOk] (preDispatchDb dbA jobA) jobA [] []).failures ≠ [] →
        getConfig (processVideo id [ytOk] egFiles 7 dbA jobA []).1 pauseKey =
          some "1")) :=
  ⟨⟨by decide, rfl, by decide⟩,
    C2_success_archives id [ytOk] egFiles 7 dbA jobA [] [] 5
      (dispatchAgg id [ytOk] (preDispatchDb dbA jobA) jobA [] [])
      (by decide) rfl (by decide) (by decide) rfl (Or.inl (by decide))⟩

theorem stepPlatform_success_frame (testKey : String) (forced : List String)
    (enabledSel : Option (List String)) (k : String) (acc : RunAcc) (idx : Nat)
    (p : Platform)
    (hmark : markedSuccess ((logsGet acc.logs k).getD "") = true)
    (hatt : k ∉ acc.attempted) :
    logsGet (stepPlatform false testKey forced enabledSel acc idx p).logs k =
      logsGet acc.logs k ∧
    k ∉ (stepPlatform false testKey forced enabledSel acc idx p).attempted := by
  by_cases h1 : (!forced.isEmpty && !forced.contains p.key) = true
  · simp only [stepPlatform, Bool.false_and, Bool.false_eq_true, if_false, h1, if_true]
    exact ⟨trivial, hatt⟩
  · by_cases h2 : (match enabledSel with
        | some es => !es.contains p.key
        | none => false) = true
    · simp only [stepPlatform, Bool.false_and, Bool.false_eq_true, if_false, h1, h2,
        if_true]
      exact ⟨trivial, hatt⟩
    · by_cases hk : p.key = k
      · have hm' : markedSuccess ((logsGet acc.logs p.key).getD "") = true := by
          rw [hk]; exact hmark
        simp only [stepPlatform, Bool.false_and, Bool.false_eq_true, if_false, h1, h2,
          hm', if_true]
        exact ⟨trivial, hatt⟩
      · have hne : k ∉ acc.attempted ++ [p.key] := by
          simp only [List.mem_append, List.mem_singleton]
          rintro (h | h)
          · exact hatt h
          · exact hk h.symm
        simp only [stepPlatform, Bool.false_and, Bool.false_eq_true, if_false, h1, h2]
        by_cases hm2 : markedSuccess ((logsGet acc.logs p.key).getD "") = true
        · simp only [hm2, if_true]
          exact ⟨trivial, hatt⟩
        · simp only [hm2, if_false]
          by_cases hc : (!p.connected) = true
          · simp only [hc, if_true]
            exact ⟨logsGet_logsSet_ne _ _ _ _ hk, hatt⟩
          · simp only [hc, if_false]
            by_cases hp : (!p.preflight.1) = true
            · simp only [hp, if_true]
              exact ⟨logsGet_logsSet_ne _ _ _ _ hk, hatt⟩
            · simp only [hp, if_false]
              by_cases hu : p.upload.1 = true
              · simp only [hu, if_true]
                exact ⟨logsGet_logsSet_ne _ _ _ _ hk, hne⟩
              · simp only [hu, if_false]
                exact ⟨logsGet_logsSet_ne _ _ _ _ hk, hne⟩

theorem runPlatforms_fold_frame (testKey : String) (forced : List String)
    (enabledSel : Option (List String)) (k : String) (ps : List (Nat × Platform)) :
    ∀ acc : RunAcc,
      markedSuccess ((logsGet acc.logs k).getD "") = true → k ∉ acc.attempted →
      logsGet (ps.foldl (fun a ip =>
          stepPlatform false testKey forced enabledSel a ip.1 ip.2) acc).logs k =
        logsGet acc.logs k ∧
      k ∉ (ps.foldl (fun a ip =>
          stepPlatform false testKey forced enabledSel a ip.1 ip.2) acc).attempted := by
  induction ps with
  | nil => exact fun acc hm ha => ⟨rfl, ha⟩
  | cons ip ps ih =>
      intro acc hm ha
      have hstep := stepPlatform_success_frame testKey forced enabledSel k acc ip.1 ip.2
        hm ha
      have hm' : markedSuccess
          ((logsGet (stepPlatform false testKey forced enabledSel acc ip.1 ip.2).logs
            k).getD "") = true := by
        rw [hstep.1]; exact hm
      have hrec := ih _ hm' hstep.2
      simp only [List.foldl_cons]
      exact ⟨hrec.1.trans hstep.1, hrec.2⟩

/-- C4 (amended): while a platform key is marked "success" in
platform_logs, a non-staged dispatch never invokes that platform's
uploader again and leaves its log entry untouched.  The mark is not
permanent, however: the operator-facing `clear_platform_status` deletes
any chosen key — success included — to allow a manual retry (see the
counterexample), and in staged mode a test-platform failure overwrites
later entries with a skip note. -/
theorem C4_success_never_reattempted (testKey : String) (forced : List String)
    (enabledSel : Option (List String)) (prev : Logs) (items : List Platform)
    (k : String)
    (hmark : markedSuccess ((logsGet prev k).getD "") = true) :
    k ∉ (runPlatforms false testKey forced enabledSel prev items).attempted ∧
    logsGet (runPlatforms false testKey forced enabledSel prev items).logs k =
      logsGet prev k := by
  unfold runPlatforms
  have h := runPlatforms_fold_frame testKey forced enabledSel k items.enum
    ⟨prev, [], [], [], false, []⟩ hmark (by simp)
  exact ⟨h.2, h.1⟩

/-- C4 counterexample: `clear_platform_status` removes a success-marked
key from platform_logs, so the claim that no operation of the system ever
removes such a key is false. -/
theorem C4_counterexample :
    dbC4.queue.map Job.platformLogs = [some (.mapEnc [("youtube", "success")])] ∧
    markedSuccess ((logsGet [("youtube", "success")] "youtube").getD "") = true ∧
    (clearPlatformStatus (fun _ _ => false) dbC4 1 "youtube").map
        (fun x => (x.1.queue.map Job.platformLogs, x.2)) =
      some ([some (.mapEnc [])], true) := by decide

/-- Witness for the amended C4: with youtube already marked success, a
dispatch over a registry whose youtube upload would fail neither attempts
youtube nor changes its entry. -/
theorem C4_success_never_reattempted_witness :
    markedSuccess ((logsGet [("youtube", "success")] "youtube").getD "") = true ∧
    ("youtube" ∉ (runPlatforms false "youtube" [] none [("youtube", "success")]
        [ytFail]).attempted ∧
      logsGet (runPlatforms false "youtube" [] none [("youtube", "success")]
          [ytFail]).logs "youtube" =
        logsGet [("youtube", "success")] "youtube") :=
  ⟨by decide,
    C4_success_never_reattempted "youtube" [] none [("youtube", "success")] [ytFail]
      "youtube" (by decide)⟩

/-- C3 (amended): an unexpected exception while processing one job is
caught at the tick boundary, not at the job boundary: the tick returns
the store exactly as it was at the moment of the exception, so the worker
loop survives, but every remaining due job selected in that tick goes
unprocessed (left for a later tick), and nothing records the failure on
the failing job. -/
theorem C3_tick_aborts_on_exception (shuffle : List Platform → List Platform)
    (registry : List Platform) (files : String → Option Nat)
    (db0 db db2 : Db) (now : Nat) (j : Job) (rest : List Job) (e : String)
    (hsched : getScheduleDb db0 = (normalizeSchedule db0.schedule, db))
    (hpaused : flagVal (getConfig db pauseKey) = false)
    (hforce : flagVal (getConfig db forceKey) = false)
    (hfp : (getConfig db forcePlatformKey).getD "" = "")
    (hdue : getDueQueue db now = j :: rest)
    (hjs : (j.status == "pending" || j.status == "retry") = true)
    (hproc : processVideo shuffle registry files now db j [] = (db2, some e)) :
    checkAndPost shuffle registry files false db0 now = db2 := by
  unfold checkAndPost
  rw [hsched]
  simp [processLoop, hpaused, hforce, hfp, hdue, hjs, hproc]

/-- C3 counterexample: two jobs are due in the same tick; an unexpected
exception while processing the first (its stored logs are double-encoded,
so `previous_logs.copy()` raises) aborts the whole tick.  The second due
job is not processed — its row is unchanged, attempts still 0 — and the
failure is not recorded on the first job either: it is left `processing`
with no last_error. -/
theorem C3_counterexample :
    (getDueQueue dbC3 100).map Job.id = [1, 2] ∧
    (processVideo id [ytFail] egFiles 100 dbC3 jobStr []).2.isSome = true ∧
    (checkAndPost id [ytFail] egFiles false dbC3 100).queue.map
        (fun j => (j.id, j.status, j.attempts, j.lastError)) =
      [(1, "processing", 1, none), (2, "pending", 0, none)] := by decide

/-- Witness for the amended C3 at the concrete two-job tick. -/
theorem C3_tick_aborts_on_exception_witness :
    (getScheduleDb dbC3 = (normalizeSchedule dbC3.schedule, dbC3) ∧
      getDueQueue dbC3 100 = [jobStr, jobB] ∧
      processVideo id [ytFail] egFiles 100 dbC3 jobStr [] =
        (dbC3mid, some "AttributeError: str object has no attribute copy")) ∧
    checkAndPost id [ytFail] egFiles false dbC3 100 = dbC3mid :=
  ⟨⟨by decide, by decide, by decide⟩,
    C3_tick_aborts_on_exception id [ytFail] egFiles dbC3 dbC3 dbC3mid 100 jobStr [jobB]
      "AttributeError: str object has no attribute copy" (by decide) (by decide)
      (by decide) (by decide) (by decide) (by decide) (by decide)⟩

/-- C7: `get_uploaded_items` promises "the oldest uploaded items first"
(its docstring) yet orders by `uploaded_at DESC, id DESC`, so
`cleanup_uploaded(1)` deletes the **newest** archive row: with rows
uploaded at 100 (id 1) and 200 (id 2), the row kept is the oldest one and
the bytes freed are the newest file's 20, not the oldest file's 10.  The
returned pair `(items_deleted, bytes_freed)` itself is as documented. -/
theorem C7_cleanup_deletes_newest :
    upOld.uploadedAt < upNew.uploadedAt ∧
    (getUploadedItems dbC7 1).map Upload.id = [2] ∧
    (cleanupUploaded filesC7 dbC7 1).1.uploads.map Upload.id = [1] ∧
    (cleanupUploaded filesC7 dbC7 1).2.2 = (1, 20) := by decide

/-- C9: `reset_stale_tasks` does reset every stale `processing` row to
`pending`, exactly once and idempotently, but it does **not** preserve
platform_logs as its own comment ("Keep logs, just reset status")
promises: it passes the raw column text back to `update_queue_status`,
which re-encodes it (`json.dumps` of a `str`), so the stored map becomes
a double-encoded string and the next dispatch of the job crashes on
`previous_logs.copy()` instead of honouring the recorded success. -/
theorem C9_reset_double_encodes :
    (resetStaleTasks dbC9).queue.map (fun j => (j.id, j.status, j.attempts)) =
      [(1, "pending", 2)] ∧
    (resetStaleTasks dbC9).queue.map Job.platformLogs =
      [some (.strEnc (.mapEnc [("youtube", "success")]))] ∧
    dbC9.queue.map Job.platformLogs = [some (.mapEnc [("youtube", "success")])] ∧
    resetStaleTasks (resetStaleTasks dbC9) = resetStaleTasks dbC9 ∧
    ∀ j ∈ (resetStaleTasks dbC9).queue,
      (processVideo id [ytOk] egFiles 0 (resetStaleTasks dbC9) j []).2 =
        some "AttributeError: str object has no attribute copy" := by decide
